import Mathlib

/-!
Verification of the misclassification-detection core of the
gtdb-species-clusters tools.

The development shallowly embeds the two detection methods of
`update_erroneous_ncbi.py` (`identify_misclassified_genomes_ani` and
`identify_misclassified_genomes_cluster`), the epithet incongruence
checker of `pmc_check_type_strains.py`, and the helper routines they
rely on.  Python dictionaries are modelled as association lists with
last-write-wins lookup, iteration follows source order, and fallible
steps (KeyError lookups, the fatal `sys.exit` on conflicting species
anchors) are modelled with `Except`.
-/

/-- Error outcomes of the embedded runs: an uncaught `KeyError` on a
dictionary lookup, or the fatal `sys.exit(-1)` issued when an NCBI
species has effective type strain genomes in two different clusters. -/
inductive DetErr where
  | keyError (key : String)
  | anchorConflict (sp : String)
deriving DecidableEq, Repr

/-- Decidable equality for `Except`, needed to evaluate the embedded
runs on concrete inputs. -/
instance exceptDecEq {ε α : Type} [DecidableEq ε] [DecidableEq α] :
    DecidableEq (Except ε α)
  | .error e1, .error e2 =>
    if h : e1 = e2 then .isTrue (by rw [h]) else .isFalse (by simp [h])
  | .error _, .ok _ => .isFalse (by simp)
  | .ok _, .error _ => .isFalse (by simp)
  | .ok a1, .ok a2 =>
    if h : a1 = a2 then .isTrue (by rw [h]) else .isFalse (by simp [h])

/-- View of a genome record as consumed by the embedded tools:
the NCBI species label (`ncbi_taxa.species`), the two type strain
flags, and the RefSeq exclusion annotation. -/
structure Genome where
  ncbi_species : String
  is_effective_type_strain : Bool
  is_gtdb_type_strain : Bool
  excluded_from_refseq_note : String
deriving DecidableEq, Repr

/-- The current genome set (`cur_genomes`): a Python dict modelled as an
insertion-ordered association list from genome ID to record. -/
abbrev GenomeSet := List (String × Genome)

/-- The current species clusters (`cur_clusters`): representative ID
paired with the list of clustered genome IDs. -/
abbrev Clusters := List (String × List String)

/-- Oracle output (`ani_af`): mapping from an ordered genome-ID pair to
the (ANI, AF) values FastANI produced for it; pairs the oracle could
not score are simply absent. -/
abbrev AniAf := List ((String × String) × (ℚ × ℚ))

/-- Dictionary lookup on an association list; the head is the most
recent write, so `dfind` realises last-write-wins semantics when
entries are consed on. -/
def dfind (d : List (String × String)) (k : String) : Option String :=
  (d.find? (fun p => p.1 == k)).map (fun p => p.2)

/-- Lookup of a pair in the oracle result mapping. -/
def afind (m : AniAf) (k : String × String) : Option (ℚ × ℚ) :=
  (m.find? (fun p => p.1 == k)).map (fun p => p.2)

/-- `cur_genomes[gid]` as a partial lookup. -/
def getGenome? (cur : GenomeSet) (gid : String) : Option Genome :=
  (cur.find? (fun p => p.1 == gid)).map (fun p => p.2)

/-- Modelled from the spec: `longest_common_prefix` of the external
`taxon_utils` module is not under `src/`; per the spec it returns the
longest common prefix of the two strings. -/
def lcpChars : List Char → List Char → List Char
  | a :: as, b :: bs => if a = b then a :: lcpChars as bs else []
  | _, _ => []

/-- Longest common prefix on strings, via `lcpChars`. -/
def lcp (s1 s2 : String) : String :=
  String.mk (lcpChars s1.toList s2.toList)

/-- `PMC_CheckTypeStrains._test_same_epithet`: two epithets are the
same when they are equal, or when their longest common prefix reaches
`min(len(epithet1), len(epithet2)) - 3` (integer arithmetic, as in the
source). -/
def test_same_epithet (epithet1 epithet2 : String) : Bool :=
  if epithet1 = epithet2 then
    true
  else if ((lcp epithet1 epithet2).length : ℤ) ≥
      min (epithet1.length : ℤ) (epithet2.length : ℤ) - 3 then
    true
  else
    false

/-- Splits a character list into maximal space-free words, carrying the
(reversed) characters of the word currently being read. -/
def wordsAux (acc : List Char) : List Char → List String
  | [] => if acc = [] then [] else [String.mk acc.reverse]
  | c :: cs =>
    if c = ' ' then
      if acc = [] then wordsAux [] cs
      else String.mk acc.reverse :: wordsAux [] cs
    else wordsAux (c :: acc) cs

/-- The whitespace-separated words of a string. -/
def wordsOf (s : String) : List String :=
  wordsAux [] s.toList

/-- Modelled from the spec: `specific_epithet` of the external
`taxon_utils` module is not under `src/`; per the spec it returns the
second word of the species binomial, and the empty string when the
label has no second word (such as the unassigned sentinel `s__`). -/
def specific_epithet (species : String) : String :=
  match wordsOf species with
  | _ :: w :: _ => w
  | _ => ""

/-- Modelled from the spec: `symmetric_ani` of the external
`type_genome_utils` module is not under `src/`; per the spec the
lookup probes both orderings of the pair and yields the cached value
whichever orientation was stored, while a pair the Oracle could not
score (both orderings absent) is unresolved (`none`). -/
def symmetric_ani (ani_af : AniAf) (gid1 gid2 : String) : Option (ℚ × ℚ) :=
  match afind ani_af (gid1, gid2) with
  | some v => some v
  | none => afind ani_af (gid2, gid1)

/-- Modelled from the spec: the shape of the output of the external
cluster-file reader `read_clusters` (not under `src/`).  The
representative is implicitly also a member of its own cluster, and
membership partitions the genome set, so the member lists are pairwise
disjoint. -/
def ReadClustersOutput (clusters : Clusters) : Prop :=
  (∀ p ∈ clusters, p.1 ∈ p.2) ∧
    clusters.Pairwise (fun p q => ∀ g, g ∈ p.2 → g ∉ q.2)

/-- The `forbidden_names` set of both detection methods. -/
def forbidden_names : List String := ["cyanobacterium"]

/-- Lookup in the `gid_to_rid` dictionary built by both detection
methods (`for rid, cids in cur_clusters.items(): for cid in cids:
gid_to_rid[cid] = rid`).  Later clusters overwrite earlier ones, so the
lookup gives priority to the rest of the list. -/
def gid_to_rid (clusters : Clusters) (gid : String) : Option String :=
  match clusters with
  | [] => none
  | p :: rest =>
    match gid_to_rid rest gid with
    | some r => some r
    | none => if gid ∈ p.2 then some p.1 else none

/-- The filter both methods apply when gathering candidate genomes:
a genome participates when its NCBI species label is assigned and its
specific epithet is not forbidden. -/
def sp_pass (gen : Genome) : Bool :=
  gen.ncbi_species != "s__" &&
    !(forbidden_names.contains (specific_epithet gen.ncbi_species))

/-- The (species, gid) pairs appended to the `ncbi_sp_gids`
defaultdict, in `cur_genomes` iteration order. -/
def sp_entries (cur : GenomeSet) : List (String × String) :=
  (cur.filter (fun p => sp_pass p.2)).map (fun p => (p.2.ncbi_species, p.1))

/-- The value list `ncbi_sp_gids[sp]`: candidate genomes carrying NCBI
species `sp`, in insertion order. -/
def species_gids (cur : GenomeSet) (sp : String) : List String :=
  ((sp_entries cur).filter (fun e => e.1 == sp)).map (fun e => e.2)

/-- Deduplication keeping first occurrences, mirroring the key order of
a Python dict populated by repeated appends. -/
def dedupFirst (seen : List String) : List String → List String
  | [] => []
  | x :: xs =>
    if x ∈ seen then dedupFirst seen xs
    else x :: dedupFirst (x :: seen) xs

/-- The key list of the `ncbi_sp_gids` defaultdict, in first-insertion
order. -/
def sp_keys (cur : GenomeSet) : List String :=
  dedupFirst [] ((sp_entries cur).map (fun e => e.1))

/-- The value held by the Python variable `ncbi_species` after the
candidate-gathering loop of `identify_misclassified_genomes_cluster`:
the species label of the last genome iterated.  The anchor loop of
that method reads this stale variable when computing `ncbi_specific`
(line 187 of `update_erroneous_ncbi.py`).  The empty-set branch is
unreachable in context, since the anchor loop only reads the variable
after a successful genome lookup. -/
def leaked_specific (cur : GenomeSet) : String :=
  match cur.getLast? with
  | some p => specific_epithet p.2.ncbi_species
  | none => ""

/-- A row of the `ncbi_misclassified_sp.ani_*.tsv` report. -/
structure AniRow where
  gid : String
  sp : String
  cur_rid : String
  type_rid : String
  ani : ℚ
  af : ℚ
deriving DecidableEq, Repr

/-- A row of the `ncbi_misclassified_sp.gtdb_clustering.tsv` report. -/
structure ClusterRow where
  gid : String
  sp : String
  cur_rid : String
  type_rid : String
deriving DecidableEq, Repr

/-- The anchor loop of `identify_misclassified_genomes_ani` (lines
92-97): for each cluster whose representative is an effective type
strain genome with an assigned NCBI species, record (species →
representative), silently overwriting any previous entry. -/
def anchor_scan_ani (cur : GenomeSet) :
    Clusters → List (String × String) → Except DetErr (List (String × String))
  | [], d => .ok d
  | p :: rest, d =>
    match getGenome? cur p.1 with
    | none => .error (.keyError p.1)
    | some gen =>
      if gen.is_effective_type_strain ∧ gen.ncbi_species ≠ "s__" then
        anchor_scan_ani cur rest ((gen.ncbi_species, p.1) :: d)
      else
        anchor_scan_ani cur rest d

/-- `ncbi_type_anchored_species` as built by the ANI method. -/
def ncbi_type_anchored_species_ani (cur : GenomeSet) (clusters : Clusters) :
    Except DetErr (List (String × String)) :=
  anchor_scan_ani cur clusters []

/-- The inner member scan of the anchor loop of
`identify_misclassified_genomes_cluster` (lines 183-195).  Note that
the forbidden-name guard tests `leaked`, the stale epithet of the
previous loop, exactly as the source does, and that a species already
anchored to a different cluster is a fatal conflict. -/
def anchor_scan_cids (cur : GenomeSet) (leaked : String) (rid : String) :
    List String → List (String × String) → Except DetErr (List (String × String))
  | [], d => .ok d
  | cid :: rest, d =>
    match getGenome? cur cid with
    | none => .error (.keyError cid)
    | some gen =>
      if gen.is_effective_type_strain then
        if gen.ncbi_species ≠ "s__" ∧ ¬ (leaked ∈ forbidden_names) then
          match dfind d gen.ncbi_species with
          | some r0 =>
            if rid ≠ r0 then .error (.anchorConflict gen.ncbi_species)
            else anchor_scan_cids cur leaked rid rest ((gen.ncbi_species, rid) :: d)
          | none => anchor_scan_cids cur leaked rid rest ((gen.ncbi_species, rid) :: d)
        else anchor_scan_cids cur leaked rid rest d
      else anchor_scan_cids cur leaked rid rest d

/-- The outer anchor loop of `identify_misclassified_genomes_cluster`. -/
def anchor_scan_cluster (cur : GenomeSet) (leaked : String) :
    Clusters → List (String × String) → Except DetErr (List (String × String))
  | [], d => .ok d
  | p :: rest, d =>
    match anchor_scan_cids cur leaked p.1 p.2 d with
    | .error e => .error e
    | .ok d2 => anchor_scan_cluster cur leaked rest d2

/-- `ncbi_type_anchored_species` as built by the clustering method. -/
def ncbi_type_anchored_species_cluster (cur : GenomeSet) (clusters : Clusters) :
    Except DetErr (List (String × String)) :=
  anchor_scan_cluster cur (leaked_specific cur) clusters []

/-- The `gids_to_check` loop of the ANI method (lines 111-118): keep
the candidates residing in a cluster other than the anchor; a genome
absent from `gid_to_rid` raises `KeyError`. -/
def gids_to_check (gtr : String → Option String) (type_rid : String) :
    List String → Except DetErr (List String)
  | [] => .ok []
  | gid :: rest =>
    match gtr gid with
    | none => .error (.keyError gid)
    | some cur_rid =>
      match gids_to_check gtr type_rid rest with
      | .error e => .error e
      | .ok l => .ok (if type_rid ≠ cur_rid then gid :: l else l)

/-- The per-candidate ANI check of the ANI method (lines 139-149).
The `none` branch is modelled from the spec: a pair the Oracle could
not score is unresolved and excluded from the below-threshold
determination. -/
def ani_check_gids (thr : ℚ) (ani_af : AniAf) (gtr : String → Option String)
    (sp type_rid : String) :
    List String → List AniRow → List String → Except DetErr (List AniRow × List String)
  | [], rows, mis => .ok (rows, mis)
  | gid :: rest, rows, mis =>
    match symmetric_ani ani_af type_rid gid with
    | none => ani_check_gids thr ani_af gtr sp type_rid rest rows mis
    | some (ani, af) =>
      if ani < thr then
        match gtr gid with
        | none => .error (.keyError gid)
        | some cur_rid =>
          ani_check_gids thr ani_af gtr sp type_rid rest
            (rows ++ [⟨gid, sp, cur_rid, type_rid, ani, af⟩]) (mis ++ [gid])
      else ani_check_gids thr ani_af gtr sp type_rid rest rows mis

/-- The species loop of the ANI method (lines 106-149), iterating the
keys of `ncbi_sp_gids` and skipping species without an anchor. -/
def ani_species_loop (cur : GenomeSet) (thr : ℚ) (ani_af : AniAf)
    (gtr : String → Option String) (anchors : List (String × String)) :
    List String → List AniRow → List String → Except DetErr (List AniRow × List String)
  | [], rows, mis => .ok (rows, mis)
  | sp :: rest, rows, mis =>
    match dfind anchors sp with
    | none => ani_species_loop cur thr ani_af gtr anchors rest rows mis
    | some type_rid =>
      match gids_to_check gtr type_rid (species_gids cur sp) with
      | .error e => .error e
      | .ok gids =>
        match ani_check_gids thr ani_af gtr sp type_rid gids rows mis with
        | .error e => .error e
        | .ok (rows2, mis2) => ani_species_loop cur thr ani_af gtr anchors rest rows2 mis2

/-- `UpdateErroneousNCBI.identify_misclassified_genomes_ani`: returns
the report rows and the misclassified genome IDs, or the error that
aborted the run. -/
def identify_misclassified_genomes_ani (cur : GenomeSet) (clusters : Clusters)
    (thr : ℚ) (ani_af : AniAf) : Except DetErr (List AniRow × List String) :=
  match ncbi_type_anchored_species_ani cur clusters with
  | .error e => .error e
  | .ok anchors =>
    ani_species_loop cur thr ani_af (gid_to_rid clusters) anchors (sp_keys cur) [] []

/-- The per-candidate check of the clustering method (lines 211-219). -/
def cluster_check_gids (gtr : String → Option String) (sp type_rid : String) :
    List String → List ClusterRow → List String →
    Except DetErr (List ClusterRow × List String)
  | [], rows, mis => .ok (rows, mis)
  | gid :: rest, rows, mis =>
    match gtr gid with
    | none => .error (.keyError gid)
    | some cur_rid =>
      if type_rid ≠ cur_rid then
        cluster_check_gids gtr sp type_rid rest
          (rows ++ [⟨gid, sp, cur_rid, type_rid⟩]) (mis ++ [gid])
      else cluster_check_gids gtr sp type_rid rest rows mis

/-- The species loop of the clustering method (lines 204-219). -/
def cluster_species_loop (cur : GenomeSet) (gtr : String → Option String)
    (anchors : List (String × String)) :
    List String → List ClusterRow → List String →
    Except DetErr (List ClusterRow × List String)
  | [], rows, mis => .ok (rows, mis)
  | sp :: rest, rows, mis =>
    match dfind anchors sp with
    | none => cluster_species_loop cur gtr anchors rest rows mis
    | some type_rid =>
      match cluster_check_gids gtr sp type_rid (species_gids cur sp) rows mis with
      | .error e => .error e
      | .ok (rows2, mis2) => cluster_species_loop cur gtr anchors rest rows2 mis2

/-- `UpdateErroneousNCBI.identify_misclassified_genomes_cluster`:
returns the report rows and the misclassified genome IDs, or the error
that aborted the run (fatal anchor conflict included). -/
def identify_misclassified_genomes_cluster (cur : GenomeSet) (clusters : Clusters) :
    Except DetErr (List ClusterRow × List String) :=
  match ncbi_type_anchored_species_cluster cur clusters with
  | .error e => .error e
  | .ok anchors =>
    cluster_species_loop cur (gid_to_rid clusters) anchors (sp_keys cur) [] []

/-- A row of the `type_strains_incongruencies.tsv` report. -/
structure IncongRow where
  rid : String
  gtdb_sp : String
  ncbi_sp : String
  note : String
deriving DecidableEq, Repr

/-- The incongruence loop of `PMC_CheckTypeStrains.run` (lines 99-114):
for every curated-taxonomy genome carrying direct type strain evidence,
skip an unassigned NCBI species and report a row when the curated and
NCBI epithets are not equivalent. -/
def type_strains_loop (cur : GenomeSet) :
    List (String × String) → List IncongRow → Except DetErr (List IncongRow)
  | [], rows => .ok rows
  | e :: rest, rows =>
    match getGenome? cur e.1 with
    | none => .error (.keyError e.1)
    | some gen =>
      if gen.is_gtdb_type_strain then
        if gen.ncbi_species = "s__" then type_strains_loop cur rest rows
        else if test_same_epithet (specific_epithet e.2) (specific_epithet gen.ncbi_species) then
          type_strains_loop cur rest rows
        else
          type_strains_loop cur rest
            (rows ++ [⟨e.1, e.2, gen.ncbi_species, gen.excluded_from_refseq_note⟩])
      else type_strains_loop cur rest rows

/-- `PMC_CheckTypeStrains.run` after data loading: the two hard-coded
debug lookups of lines 91-92, then the incongruence loop over the
curated taxonomy (modelled as genome ID paired with curated species). -/
def pmc_check_run (cur : GenomeSet) (mc_taxonomy : List (String × String)) :
    Except DetErr (List IncongRow) :=
  match getGenome? cur "G003992675" with
  | none => .error (.keyError "G003992675")
  | some _ =>
    match getGenome? cur "G003149745" with
    | none => .error (.keyError "G003149745")
    | some _ => type_strains_loop cur mc_taxonomy []

/-- Conflict scenario: two singleton clusters whose representatives are
both effective type strain genomes labelled with the same NCBI
species. -/
def genomesConflict : GenomeSet :=
  [("R1", ⟨"s__Foo bar", true, false, ""⟩),
   ("R2", ⟨"s__Foo bar", true, false, ""⟩)]

/-- Clusters of the conflict scenario. -/
def clustersConflict : Clusters :=
  [("R1", ["R1"]), ("R2", ["R2"])]

/-- Oracle results of the conflict scenario. -/
def aniAfConflict : AniAf :=
  [(("R2", "R1"), (80, 1))]

/-- Leak scenario: a type strain anchor for `s__Foo bar`, a candidate
`G2` in another cluster, and a last genome whose species carries the
forbidden epithet, which poisons the stale variable read by the anchor
loop of the clustering method. -/
def genomesLeak : GenomeSet :=
  [("R1", ⟨"s__Foo bar", true, false, ""⟩),
   ("R2", ⟨"s__", false, false, ""⟩),
   ("G2", ⟨"s__Foo bar", false, false, ""⟩),
   ("X", ⟨"s__Candidatus cyanobacterium", false, false, ""⟩)]

/-- Clusters of the leak scenario. -/
def clustersLeak : Clusters :=
  [("R1", ["R1"]), ("R2", ["R2", "G2"])]

/-- Oracle results of the leak scenario. -/
def aniAfLeak : AniAf :=
  [(("R1", "G2"), (80, 1))]

/-- Forbidden-anchor scenario: a lone representative that is an
effective type strain genome whose species epithet is the reserved
placeholder. -/
def genomesForbidden : GenomeSet :=
  [("R1", ⟨"s__Candidatus cyanobacterium", true, false, ""⟩)]

/-- Clusters of the forbidden-anchor scenario. -/
def clustersForbidden : Clusters :=
  [("R1", ["R1"])]

/-- Unclustered-candidate scenario: genome `G` shares the anchored
species but appears in no cluster, so its `gid_to_rid` lookup fails. -/
def genomesUnclustered : GenomeSet :=
  [("R1", ⟨"s__Foo bar", true, false, ""⟩),
   ("G", ⟨"s__Foo bar", false, false, ""⟩)]

/-- Clusters of the unclustered-candidate scenario. -/
def clustersUnclustered : Clusters :=
  [("R1", ["R1"])]

/-- A small well-formed clustering for the Cluster Index witness. -/
def clustersSmall : Clusters :=
  [("R1", ["R1", "G2"]), ("R2", ["R2"])]

/-- Superset scenario: like the leak scenario but without the
forbidden-epithet genome, so both detection methods complete. -/
def genomesSuperset : GenomeSet :=
  [("R1", ⟨"s__Foo bar", true, false, ""⟩),
   ("R2", ⟨"s__", false, false, ""⟩),
   ("G2", ⟨"s__Foo bar", false, false, ""⟩)]

/-- Boundary scenario of the incongruence checker: curated species
`s__Foo bar` against NCBI species `s__Foo barii` on a type strain
genome. -/
def genomesBoundary : GenomeSet :=
  [("R1", ⟨"s__Foo barii", false, true, ""⟩)]

/-- Curated taxonomy of the boundary scenario. -/
def mcBoundary : List (String × String) :=
  [("R1", "s__Foo bar")]

theorem lcpChars_comm : ∀ as bs : List Char, lcpChars as bs = lcpChars bs as := by
  intro as
  induction as with
  | nil => intro bs; cases bs <;> simp [lcpChars]
  | cons a as ih =>
    intro bs
    cases bs with
    | nil => simp [lcpChars]
    | cons b bs =>
      by_cases h : a = b
      · subst h; simp [lcpChars, ih]
      · simp only [lcpChars]
        rw [if_neg h, if_neg (fun hh => h hh.symm)]

theorem dfind_cons (k v : String) (d : List (String × String)) (sp : String) :
    dfind ((k, v) :: d) sp = if k = sp then some v else dfind d sp := by
  by_cases h : k = sp
  · simp [dfind, List.find?, h]
  · have hb : (k == sp) = false := by simp [h]
    simp [dfind, List.find?, hb, h]

theorem mem_dedupFirst {a : String} :
    ∀ (l seen : List String), a ∈ dedupFirst seen l ↔ (a ∈ l ∧ a ∉ seen) := by
  intro l
  induction l with
  | nil => intro seen; simp [dedupFirst]
  | cons x xs ih =>
    intro seen
    by_cases hx : x ∈ seen
    · simp only [dedupFirst, if_pos hx, ih]
      constructor
      · rintro ⟨h1, h2⟩; exact ⟨List.mem_cons_of_mem _ h1, h2⟩
      · rintro ⟨h1, h2⟩
        rcases List.mem_cons.mp h1 with h | h
        · exact absurd (h ▸ hx) h2
        · exact ⟨h, h2⟩
    · simp only [dedupFirst, if_neg hx]
      constructor
      · intro h
        rcases List.mem_cons.mp h with h | h
        · subst h; exact ⟨List.mem_cons_self _ _, hx⟩
        · rcases (ih (x :: seen)).mp h with ⟨h1, h2⟩
          refine ⟨List.mem_cons_of_mem _ h1, fun hc => h2 (List.mem_cons_of_mem _ hc)⟩
      · rintro ⟨h1, h2⟩
        rcases List.mem_cons.mp h1 with h | h
        · exact h ▸ List.mem_cons_self _ _
        · by_cases hax : a = x
          · exact hax ▸ List.mem_cons_self _ _
          · refine List.mem_cons_of_mem _ ((ih (x :: seen)).mpr ⟨h, fun hc => ?_⟩)
            rcases List.mem_cons.mp hc with hc | hc
            · exact hax hc
            · exact h2 hc

theorem sp_pass_iff {gen : Genome} :
    sp_pass gen = true ↔
      (gen.ncbi_species ≠ "s__" ∧ specific_epithet gen.ncbi_species ∉ forbidden_names) := by
  simp [sp_pass]

theorem mem_species_gids {cur : GenomeSet} {sp g : String} :
    g ∈ species_gids cur sp ↔
      ∃ gen, (g, gen) ∈ cur ∧ sp_pass gen = true ∧ gen.ncbi_species = sp := by
  constructor
  · intro h
    simp only [species_gids, List.mem_map, List.mem_filter, beq_iff_eq] at h
    obtain ⟨e, ⟨he, hsp⟩, hg⟩ := h
    simp only [sp_entries, List.mem_map, List.mem_filter] at he
    obtain ⟨p, ⟨hin, hpass⟩, hpe⟩ := he
    rw [← hpe] at hg hsp
    simp only at hg hsp
    refine ⟨p.2, ?_, hpass, hsp⟩
    rw [← hg]
    simpa using hin
  · rintro ⟨gen, hin, hpass, hs⟩
    simp only [species_gids, List.mem_map, List.mem_filter, beq_iff_eq]
    refine ⟨(sp, g), ⟨?_, rfl⟩, rfl⟩
    simp only [sp_entries, List.mem_map, List.mem_filter]
    refine ⟨(g, gen), ⟨hin, hpass⟩, ?_⟩
    show (gen.ncbi_species, g) = (sp, g)
    rw [hs]

/-- C7: the epithet-equivalence test returns true exactly when the two
epithets are identical or the length of their longest common prefix is
at least `min(len(epithet1), len(epithet2)) - 3`; concretely it accepts
("bacillus", "bacillus") and ("coli", "colii") and rejects
("coli", "subtilis"). -/
theorem epithet_equivalence_rule :
    (∀ epithet1 epithet2 : String,
      test_same_epithet epithet1 epithet2 = true ↔
        (epithet1 = epithet2 ∨
          ((lcp epithet1 epithet2).length : ℤ) ≥
            min (epithet1.length : ℤ) (epithet2.length : ℤ) - 3)) ∧
    test_same_epithet "bacillus" "bacillus" = true ∧
    test_same_epithet "coli" "colii" = true ∧
    test_same_epithet "coli" "subtilis" = false := by
  refine ⟨fun e1 e2 => ?_, by decide, by decide, by decide⟩
  unfold test_same_epithet
  by_cases h1 : e1 = e2
  · simp [h1]
  · rw [if_neg h1]
    by_cases h2 : ((lcp e1 e2).length : ℤ) ≥ min (e1.length : ℤ) (e2.length : ℤ) - 3
    · simp [h2]
    · simp [h1, h2]

/-- C10: the epithet-equivalence test is symmetric in its two
arguments. -/
theorem epithet_equivalence_symm (epithet1 epithet2 : String) :
    test_same_epithet epithet1 epithet2 = test_same_epithet epithet2 epithet1 := by
  unfold test_same_epithet
  by_cases h : epithet1 = epithet2
  · subst h; rfl
  · have h2 : ¬ epithet2 = epithet1 := fun hh => h hh.symm
    rw [if_neg h, if_neg h2]
    have hl : lcp epithet1 epithet2 = lcp epithet2 epithet1 := by
      unfold lcp
      rw [lcpChars_comm]
    rw [hl, min_comm]

/-- C9: the PMC type-strain check performs the two hard-coded genome
lookups before the incongruence loop, so a genome set lacking either ID
makes the run fail with a lookup error before any report row is
computed. -/
theorem pmc_hardcoded_lookups (cur : GenomeSet) (mc : List (String × String))
    (h : getGenome? cur "G003992675" = none ∨ getGenome? cur "G003149745" = none) :
    pmc_check_run cur mc = .error (.keyError "G003992675") ∨
      pmc_check_run cur mc = .error (.keyError "G003149745") := by
  rcases h with h | h
  · left
    simp [pmc_check_run, h]
  · cases hg : getGenome? cur "G003992675" with
    | none => left; simp [pmc_check_run, hg]
    | some g => right; simp [pmc_check_run, hg, h]

/-- Witness for C9 at the empty genome set. -/
theorem pmc_hardcoded_lookups_witness :
    pmc_check_run [] [] = .error (.keyError "G003992675") ∨
      pmc_check_run [] [] = .error (.keyError "G003149745") :=
  pmc_hardcoded_lookups [] [] (Or.inl rfl)

theorem gid_to_rid_eq_none {g : String} :
    ∀ clusters : Clusters, (∀ p ∈ clusters, g ∉ p.2) → gid_to_rid clusters g = none := by
  intro clusters
  induction clusters with
  | nil => intro _; rfl
  | cons p rest ih =>
    intro h
    have hrest := ih (fun q hq => h q (List.mem_cons_of_mem _ hq))
    simp only [gid_to_rid, hrest]
    rw [if_neg (h p (List.mem_cons_self _ _))]

theorem gid_to_rid_mem {g : String} :
    ∀ clusters : Clusters,
      clusters.Pairwise (fun p q => ∀ x ∈ p.2, x ∉ q.2) →
      ∀ p ∈ clusters, g ∈ p.2 → gid_to_rid clusters g = some p.1 := by
  intro clusters
  induction clusters with
  | nil => intro _ p hp; exact absurd hp (List.not_mem_nil _)
  | cons q rest ih =>
    intro hpw p hp hg
    rcases List.pairwise_cons.mp hpw with ⟨hq, hpwrest⟩
    rcases List.mem_cons.mp hp with h | h
    · subst h
      have hnone : gid_to_rid rest g = none :=
        gid_to_rid_eq_none rest (fun r hr => hq r hr g hg)
      simp only [gid_to_rid, hnone]
      rw [if_pos hg]
    · have := ih hpwrest p h hg
      simp only [gid_to_rid, this]

/-- C5: over well-formed cluster input (the representative is a member
of its own cluster and membership partitions the genome set), the
Cluster Index lookup resolves every genome appearing in the cluster
file to the representative of its cluster, and every representative
maps to itself. -/
theorem cluster_index_total (clusters : Clusters) (h : ReadClustersOutput clusters) :
    (∀ p ∈ clusters, ∀ g ∈ p.2, gid_to_rid clusters g = some p.1) ∧
      (∀ p ∈ clusters, gid_to_rid clusters p.1 = some p.1) := by
  refine ⟨fun p hp g hg => gid_to_rid_mem clusters h.2 p hp hg, fun p hp => ?_⟩
  exact gid_to_rid_mem clusters h.2 p hp (h.1 p hp)

/-- Witness for C5 on a concrete two-cluster input. -/
theorem cluster_index_total_witness :
    gid_to_rid clustersSmall "G2" = some "R1" ∧
      gid_to_rid clustersSmall "R1" = some "R1" ∧
      gid_to_rid clustersSmall "R2" = some "R2" := by
  have h : ReadClustersOutput clustersSmall := by
    constructor
    · decide
    · decide
  have hmain := cluster_index_total clustersSmall h
  refine ⟨?_, ?_, ?_⟩
  · exact hmain.1 ("R1", ["R1", "G2"]) (by decide) "G2" (by decide)
  · exact hmain.2 ("R1", ["R1", "G2"]) (by decide)
  · exact hmain.2 ("R2", ["R2"]) (by decide)

theorem species_gids_sub_keys {cur : GenomeSet} {sp g : String}
    (h : g ∈ species_gids cur sp) : sp ∈ sp_keys cur := by
  rcases mem_species_gids.mp h with ⟨gen, hin, hpass, hs⟩
  refine (mem_dedupFirst _ _).mpr ⟨?_, by simp⟩
  simp only [sp_entries, List.mem_map, List.mem_filter]
  refine ⟨(sp, g), ⟨(g, gen), ⟨hin, hpass⟩, ?_⟩, rfl⟩
  show (gen.ncbi_species, g) = (sp, g)
  rw [hs]

theorem type_strains_loop_mono {cur : GenomeSet} :
    ∀ {mc : List (String × String)} {rows0 rows : List IncongRow},
      type_strains_loop cur mc rows0 = .ok rows → ∀ r ∈ rows0, r ∈ rows := by
  intro mc
  induction mc with
  | nil =>
    intro rows0 rows h r hr
    simp only [type_strains_loop] at h
    cases h
    exact hr
  | cons e rest ih =>
    intro rows0 rows h r hr
    simp only [type_strains_loop] at h
    split at h
    · cases h
    · split at h
      · split at h
        · exact ih h r hr
        · split at h
          · exact ih h r hr
          · exact ih h r (List.mem_append_left _ hr)
      · exact ih h r hr

theorem type_strains_loop_elim {cur : GenomeSet} :
    ∀ {mc : List (String × String)} {rows0 rows : List IncongRow} {r : IncongRow},
      type_strains_loop cur mc rows0 = .ok rows → r ∈ rows →
      r ∈ rows0 ∨
        ∃ gen, (r.rid, r.gtdb_sp) ∈ mc ∧ getGenome? cur r.rid = some gen ∧
          gen.is_gtdb_type_strain = true ∧ r.ncbi_sp = gen.ncbi_species ∧
          r.note = gen.excluded_from_refseq_note ∧ gen.ncbi_species ≠ "s__" ∧
          test_same_epithet (specific_epithet r.gtdb_sp)
            (specific_epithet gen.ncbi_species) = false := by
  intro mc
  induction mc with
  | nil =>
    intro rows0 rows r h hr
    simp only [type_strains_loop] at h
    cases h
    exact Or.inl hr
  | cons e rest ih =>
    intro rows0 rows r h hr
    simp only [type_strains_loop] at h
    split at h
    · cases h
    next gen hg =>
      split at h
      next ht =>
        split at h
        next hs =>
          rcases ih h hr with h1 | ⟨gen2, hm, hrest⟩
          · exact Or.inl h1
          · exact Or.inr ⟨gen2, List.mem_cons_of_mem _ hm, hrest⟩
        next hs =>
          split at h
          next he =>
            rcases ih h hr with h1 | ⟨gen2, hm, hrest⟩
            · exact Or.inl h1
            · exact Or.inr ⟨gen2, List.mem_cons_of_mem _ hm, hrest⟩
          next he =>
            rcases ih h hr with h1 | ⟨gen2, hm, hrest⟩
            · rcases List.mem_append.mp h1 with h2 | h2
              · exact Or.inl h2
              · rcases List.mem_singleton.mp h2 with rfl
                refine Or.inr ⟨gen, ?_, hg, ht, rfl, rfl, hs, ?_⟩
                · simp
                · simpa using he
            · exact Or.inr ⟨gen2, List.mem_cons_of_mem _ hm, hrest⟩
      next ht =>
        rcases ih h hr with h1 | ⟨gen2, hm, hrest⟩
        · exact Or.inl h1
        · exact Or.inr ⟨gen2, List.mem_cons_of_mem _ hm, hrest⟩

theorem type_strains_loop_intro {cur : GenomeSet} :
    ∀ {mc : List (String × String)} {rows0 rows : List IncongRow}
      {rid sp : String} {gen : Genome},
      type_strains_loop cur mc rows0 = .ok rows → (rid, sp) ∈ mc →
      getGenome? cur rid = some gen → gen.is_gtdb_type_strain = true →
      gen.ncbi_species ≠ "s__" →
      test_same_epithet (specific_epithet sp) (specific_epithet gen.ncbi_species) = false →
      IncongRow.mk rid sp gen.ncbi_species gen.excluded_from_refseq_note ∈ rows := by
  intro mc
  induction mc with
  | nil =>
    intro rows0 rows rid sp gen _ hm
    exact absurd hm (List.not_mem_nil _)
  | cons e rest ih =>
    intro rows0 rows rid sp gen h hm hg ht hs hne
    simp only [type_strains_loop] at h
    rcases List.mem_cons.mp hm with he | he
    · have he1 : e.1 = rid := by rw [← he]
      have he2 : e.2 = sp := by rw [← he]
      rw [he1, he2] at h
      split at h
      next hg2 => rw [hg] at hg2; cases hg2
      next gen2 hg2 =>
        rw [hg] at hg2
        cases hg2
        rw [if_pos ht, if_neg hs, hne] at h
        simp only [Bool.false_eq_true, if_false] at h
        exact type_strains_loop_mono h _
          (List.mem_append_right _ (List.mem_singleton.mpr rfl))
    · split at h
      · cases h
      · split at h
        · split at h
          · exact ih h he hg ht hs hne
          · split at h
            · exact ih h he hg ht hs hne
            · exact ih h he hg ht hs hne
        · exact ih h he hg ht hs hne

/-- C8: a type-strain genome of the curated taxonomy obtains a report
row exactly when its NCBI species is assigned (not the sentinel `s__`)
and the curated and NCBI specific epithets are not equivalent under the
gender-tolerant rule. -/
theorem incongruence_check_rows (cur : GenomeSet) (mc : List (String × String))
    (rows : List IncongRow) (rid gtdb_sp : String) (gen : Genome)
    (h : type_strains_loop cur mc [] = .ok rows)
    (hm : (rid, gtdb_sp) ∈ mc)
    (hg : getGenome? cur rid = some gen)
    (ht : gen.is_gtdb_type_strain = true) :
    (∃ note, IncongRow.mk rid gtdb_sp gen.ncbi_species note ∈ rows) ↔
      (gen.ncbi_species ≠ "s__" ∧
        test_same_epithet (specific_epithet gtdb_sp)
          (specific_epithet gen.ncbi_species) = false) := by
  constructor
  · rintro ⟨note, hr⟩
    rcases type_strains_loop_elim h hr with h1 | ⟨gen2, _, hg2, _, hsp2, _, hs2, hne2⟩
    · exact absurd h1 (List.not_mem_nil _)
    · simp only at hg2 hsp2 hne2 hs2
      rw [hg] at hg2
      cases hg2
      exact ⟨hs2, hne2⟩
  · rintro ⟨hs, hne⟩
    exact ⟨gen.excluded_from_refseq_note, type_strains_loop_intro h hm hg ht hs hne⟩

/-- Witness for C8 at the boundary scenario: curated species
`s__Foo bar` against NCBI species `s__Foo barii` is equivalent under
the rule, so the genome is not flagged. -/
theorem incongruence_check_rows_witness :
    (∃ note, IncongRow.mk "R1" "s__Foo bar" "s__Foo barii" note ∈ ([] : List IncongRow)) ↔
      ("s__Foo barii" ≠ "s__" ∧
        test_same_epithet (specific_epithet "s__Foo bar")
          (specific_epithet "s__Foo barii") = false) :=
  incongruence_check_rows genomesBoundary mcBoundary []
    "R1" "s__Foo bar" ⟨"s__Foo barii", false, true, ""⟩
    (by decide) (by decide) (by decide) (by decide)

theorem gids_to_check_elim {gtr : String → Option String} {type_rid : String} :
    ∀ {gids l : List String} {g : String},
      gids_to_check gtr type_rid gids = .ok l → g ∈ l →
      g ∈ gids ∧ ∃ cr, gtr g = some cr ∧ type_rid ≠ cr := by
  intro gids
  induction gids with
  | nil =>
    intro l g h hg
    simp only [gids_to_check] at h
    cases h
    exact absurd hg (List.not_mem_nil _)
  | cons x rest ih =>
    intro l g h hg
    simp only [gids_to_check] at h
    split at h
    · cases h
    next cur_rid hcr =>
      split at h
      · cases h
      next l2 hl2 =>
        simp only [Except.ok.injEq] at h
        subst h
        by_cases hc : type_rid ≠ cur_rid
        · rw [if_pos hc] at hg
          rcases List.mem_cons.mp hg with rfl | hgl
          · exact ⟨List.mem_cons_self _ _, cur_rid, hcr, hc⟩
          · rcases ih hl2 hgl with ⟨h1, h2⟩
            exact ⟨List.mem_cons_of_mem _ h1, h2⟩
        · rw [if_neg hc] at hg
          rcases ih hl2 hg with ⟨h1, h2⟩
          exact ⟨List.mem_cons_of_mem _ h1, h2⟩

theorem gids_to_check_total {gtr : String → Option String} {type_rid : String} :
    ∀ {gids l : List String}, gids_to_check gtr type_rid gids = .ok l →
      ∀ g ∈ gids, (gtr g).isSome := by
  intro gids
  induction gids with
  | nil =>
    intro l _ g hg
    exact absurd hg (List.not_mem_nil _)
  | cons x rest ih =>
    intro l h g hg
    simp only [gids_to_check] at h
    split at h
    · cases h
    next cur_rid hcr =>
      split at h
      · cases h
      next l2 hl2 =>
        rcases List.mem_cons.mp hg with rfl | hgr
        · rw [hcr]; rfl
        · exact ih hl2 g hgr

theorem ani_check_gids_elim_mis {thr : ℚ} {ani_af : AniAf} {gtr : String → Option String}
    {sp type_rid : String} :
    ∀ {gids : List String} {rows0 : List AniRow} {mis0 : List String}
      {rows : List AniRow} {mis : List String} {g : String},
      ani_check_gids thr ani_af gtr sp type_rid gids rows0 mis0 = .ok (rows, mis) →
      g ∈ mis →
      g ∈ mis0 ∨
        (g ∈ gids ∧ ∃ a f, symmetric_ani ani_af type_rid g = some (a, f) ∧ a < thr) := by
  intro gids
  induction gids with
  | nil =>
    intro rows0 mis0 rows mis g h hg
    simp only [ani_check_gids, Except.ok.injEq, Prod.mk.injEq] at h
    obtain ⟨h1, h2⟩ := h
    subst h2
    exact Or.inl hg
  | cons x rest ih =>
    intro rows0 mis0 rows mis g h hg
    simp only [ani_check_gids] at h
    split at h
    next hsym =>
      rcases ih h hg with h1 | ⟨h2, h3⟩
      · exact Or.inl h1
      · exact Or.inr ⟨List.mem_cons_of_mem _ h2, h3⟩
    next ani af hsym =>
      split at h
      next hlt =>
        split at h
        · cases h
        next cur_rid hcr =>
          rcases ih h hg with h1 | ⟨h2, h3⟩
          · rcases List.mem_append.mp h1 with h4 | h4
            · exact Or.inl h4
            · rcases List.mem_singleton.mp h4 with rfl
              exact Or.inr ⟨List.mem_cons_self _ _, ani, af, hsym, hlt⟩
          · exact Or.inr ⟨List.mem_cons_of_mem _ h2, h3⟩
      next hlt =>
        rcases ih h hg with h1 | ⟨h2, h3⟩
        · exact Or.inl h1
        · exact Or.inr ⟨List.mem_cons_of_mem _ h2, h3⟩

theorem ani_check_gids_elim_rows {thr : ℚ} {ani_af : AniAf} {gtr : String → Option String}
    {sp type_rid : String} :
    ∀ {gids : List String} {rows0 : List AniRow} {mis0 : List String}
      {rows : List AniRow} {mis : List String} {r : AniRow},
      ani_check_gids thr ani_af gtr sp type_rid gids rows0 mis0 = .ok (rows, mis) →
      r ∈ rows →
      r ∈ rows0 ∨
        (symmetric_ani ani_af r.type_rid r.gid = some (r.ani, r.af) ∧ r.ani < thr) := by
  intro gids
  induction gids with
  | nil =>
    intro rows0 mis0 rows mis r h hr
    simp only [ani_check_gids, Except.ok.injEq, Prod.mk.injEq] at h
    obtain ⟨h1, h2⟩ := h
    subst h1
    exact Or.inl hr
  | cons x rest ih =>
    intro rows0 mis0 rows mis r h hr
    simp only [ani_check_gids] at h
    split at h
    next hsym =>
      exact ih h hr
    next ani af hsym =>
      split at h
      next hlt =>
        split at h
        · cases h
        next cur_rid hcr =>
          rcases ih h hr with h1 | h2
          · rcases List.mem_append.mp h1 with h3 | h3
            · exact Or.inl h3
            · rcases List.mem_singleton.mp h3 with rfl
              exact Or.inr ⟨hsym, hlt⟩
          · exact Or.inr h2
      next hlt =>
        exact ih h hr

theorem ani_species_loop_elim_mis {cur : GenomeSet} {thr : ℚ} {ani_af : AniAf}
    {gtr : String → Option String} {anchors : List (String × String)} :
    ∀ {sps : List String} {rows0 : List AniRow} {mis0 : List String}
      {rows : List AniRow} {mis : List String} {g : String},
      ani_species_loop cur thr ani_af gtr anchors sps rows0 mis0 = .ok (rows, mis) →
      g ∈ mis →
      g ∈ mis0 ∨
        ∃ sp type_rid cr a f, sp ∈ sps ∧ dfind anchors sp = some type_rid ∧
          g ∈ species_gids cur sp ∧ gtr g = some cr ∧ type_rid ≠ cr ∧
          symmetric_ani ani_af type_rid g = some (a, f) ∧ a < thr := by
  intro sps
  induction sps with
  | nil =>
    intro rows0 mis0 rows mis g h hg
    simp only [ani_species_loop, Except.ok.injEq, Prod.mk.injEq] at h
    obtain ⟨h1, h2⟩ := h
    subst h2
    exact Or.inl hg
  | cons sp rest ih =>
    intro rows0 mis0 rows mis g h hg
    simp only [ani_species_loop] at h
    split at h
    next hanch =>
      rcases ih h hg with h1 | ⟨sp2, tr, cr, a, f, hmem, hrest⟩
      · exact Or.inl h1
      · exact Or.inr ⟨sp2, tr, cr, a, f, List.mem_cons_of_mem _ hmem, hrest⟩
    next type_rid hanch =>
      split at h
      · cases h
      next gids hgids =>
        split at h
        · cases h
        next rows2 mis2 hcheck =>
          rcases ih h hg with h1 | ⟨sp2, tr, cr, a, f, hmem, hrest⟩
          · rcases ani_check_gids_elim_mis hcheck h1 with h2 | ⟨h3, a, f, hsym, hlt⟩
            · exact Or.inl h2
            · rcases gids_to_check_elim hgids h3 with ⟨h4, cr, hcr, hne⟩
              exact Or.inr ⟨sp, type_rid, cr, a, f, List.mem_cons_self _ _,
                hanch, h4, hcr, hne, hsym, hlt⟩
          · exact Or.inr ⟨sp2, tr, cr, a, f, List.mem_cons_of_mem _ hmem, hrest⟩

theorem ani_species_loop_elim_rows {cur : GenomeSet} {thr : ℚ} {ani_af : AniAf}
    {gtr : String → Option String} {anchors : List (String × String)} :
    ∀ {sps : List String} {rows0 : List AniRow} {mis0 : List String}
      {rows : List AniRow} {mis : List String} {r : AniRow},
      ani_species_loop cur thr ani_af gtr anchors sps rows0 mis0 = .ok (rows, mis) →
      r ∈ rows →
      r ∈ rows0 ∨
        (symmetric_ani ani_af r.type_rid r.gid = some (r.ani, r.af) ∧ r.ani < thr) := by
  intro sps
  induction sps with
  | nil =>
    intro rows0 mis0 rows mis r h hr
    simp only [ani_species_loop, Except.ok.injEq, Prod.mk.injEq] at h
    obtain ⟨h1, h2⟩ := h
    subst h1
    exact Or.inl hr
  | cons sp rest ih =>
    intro rows0 mis0 rows mis r h hr
    simp only [ani_species_loop] at h
    split at h
    next hanch =>
      exact ih h hr
    next type_rid hanch =>
      split at h
      · cases h
      next gids hgids =>
        split at h
        · cases h
        next rows2 mis2 hcheck =>
          rcases ih h hr with h1 | h2
          · exact ani_check_gids_elim_rows hcheck h1
          · exact Or.inr h2

theorem ani_species_loop_total {cur : GenomeSet} {thr : ℚ} {ani_af : AniAf}
    {gtr : String → Option String} {anchors : List (String × String)} :
    ∀ {sps : List String} {rows0 : List AniRow} {mis0 : List String}
      {rows : List AniRow} {mis : List String},
      ani_species_loop cur thr ani_af gtr anchors sps rows0 mis0 = .ok (rows, mis) →
      ∀ sp ∈ sps, ∀ type_rid, dfind anchors sp = some type_rid →
      ∀ g ∈ species_gids cur sp, (gtr g).isSome := by
  intro sps
  induction sps with
  | nil =>
    intro rows0 mis0 rows mis _ sp hsp
    exact absurd hsp (List.not_mem_nil _)
  | cons s rest ih =>
    intro rows0 mis0 rows mis h sp hsp type_rid hanch g hg
    simp only [ani_species_loop] at h
    rcases List.mem_cons.mp hsp with rfl | hsp2
    · simp only [hanch] at h
      split at h
      · cases h
      next gids hgids =>
        split at h
        · cases h
        next rows2 mis2 hcheck =>
          exact gids_to_check_total hgids g hg
    · split at h
      next hanch2 =>
        exact ih h sp hsp2 type_rid hanch g hg
      next tr hanch2 =>
        split at h
        · cases h
        next gids hgids =>
          split at h
          · cases h
          next rows2 mis2 hcheck =>
            exact ih h sp hsp2 type_rid hanch g hg

/-- C2: in the ANI method, a candidate pair the Oracle could not score
never contributes a flagged genome or a report row: every flagged
genome and every written row carries a resolved symmetric ANI value
that is below the threshold. -/
theorem ani_unresolved_pairs_excluded (cur : GenomeSet) (clusters : Clusters)
    (thr : ℚ) (ani_af : AniAf) (rows : List AniRow) (mis : List String)
    (h : identify_misclassified_genomes_ani cur clusters thr ani_af = .ok (rows, mis)) :
    (∀ g ∈ mis, ∃ R a f, symmetric_ani ani_af R g = some (a, f) ∧ a < thr) ∧
      (∀ r ∈ rows, symmetric_ani ani_af r.type_rid r.gid = some (r.ani, r.af) ∧
        r.ani < thr) := by
  unfold identify_misclassified_genomes_ani at h
  split at h
  · cases h
  next anchors hanch =>
    constructor
    · intro g hg
      rcases ani_species_loop_elim_mis h hg with h1 | ⟨sp, tr, cr, a, f, _, _, _, _, _, hsym, hlt⟩
      · exact absurd h1 (List.not_mem_nil _)
      · exact ⟨tr, a, f, hsym, hlt⟩
    · intro r hr
      rcases ani_species_loop_elim_rows h hr with h1 | h2
      · exact absurd h1 (List.not_mem_nil _)
      · exact h2

/-- Witness for C2 at the conflict scenario, where the ANI method
completes and flags genome `R1`. -/
theorem ani_unresolved_pairs_excluded_witness :
    (∀ g ∈ ["R1"], ∃ R a f, symmetric_ani aniAfConflict R g = some (a, f) ∧ a < 95) ∧
      (∀ r ∈ [AniRow.mk "R1" "s__Foo bar" "R1" "R2" 80 1],
        symmetric_ani aniAfConflict r.type_rid r.gid = some (r.ani, r.af) ∧ r.ani < 95) :=
  ani_unresolved_pairs_excluded genomesConflict clustersConflict 95 aniAfConflict
    [AniRow.mk "R1" "s__Foo bar" "R1" "R2" 80 1] ["R1"] (by decide)

theorem cluster_check_gids_mono {gtr : String → Option String} {sp type_rid : String} :
    ∀ {gids : List String} {rows0 : List ClusterRow} {mis0 : List String}
      {rows : List ClusterRow} {mis : List String},
      cluster_check_gids gtr sp type_rid gids rows0 mis0 = .ok (rows, mis) →
      ∀ g ∈ mis0, g ∈ mis := by
  intro gids
  induction gids with
  | nil =>
    intro rows0 mis0 rows mis h g hg
    simp only [cluster_check_gids, Except.ok.injEq, Prod.mk.injEq] at h
    obtain ⟨h1, h2⟩ := h
    subst h2
    exact hg
  | cons x rest ih =>
    intro rows0 mis0 rows mis h g hg
    simp only [cluster_check_gids] at h
    split at h
    · cases h
    next cur_rid hcrx =>
      split at h
      next hif =>
        exact ih h g (List.mem_append_left _ hg)
      next hif =>
        exact ih h g hg

theorem cluster_check_gids_intro {gtr : String → Option String} {sp type_rid : String} :
    ∀ {gids : List String} {rows0 : List ClusterRow} {mis0 : List String}
      {rows : List ClusterRow} {mis : List String} {g cr : String},
      cluster_check_gids gtr sp type_rid gids rows0 mis0 = .ok (rows, mis) →
      g ∈ gids → gtr g = some cr → type_rid ≠ cr → g ∈ mis := by
  intro gids
  induction gids with
  | nil =>
    intro rows0 mis0 rows mis g cr _ hg
    exact absurd hg (List.not_mem_nil _)
  | cons x rest ih =>
    intro rows0 mis0 rows mis g cr h hg hcr hne
    simp only [cluster_check_gids] at h
    split at h
    · cases h
    next cur_rid hcrx =>
      split at h
      next hif =>
        rcases List.mem_cons.mp hg with rfl | hgr
        · exact cluster_check_gids_mono h g
            (List.mem_append_right _ (List.mem_singleton.mpr rfl))
        · exact ih h hgr hcr hne
      next hif =>
        rcases List.mem_cons.mp hg with rfl | hgr
        · rw [hcr] at hcrx
          cases hcrx
          exact absurd hne hif
        · exact ih h hgr hcr hne

theorem cluster_check_gids_elim_mis {gtr : String → Option String} {sp type_rid : String} :
    ∀ {gids : List String} {rows0 : List ClusterRow} {mis0 : List String}
      {rows : List ClusterRow} {mis : List String} {g : String},
      cluster_check_gids gtr sp type_rid gids rows0 mis0 = .ok (rows, mis) →
      g ∈ mis → g ∈ mis0 ∨ g ∈ gids := by
  intro gids
  induction gids with
  | nil =>
    intro rows0 mis0 rows mis g h hg
    simp only [cluster_check_gids, Except.ok.injEq, Prod.mk.injEq] at h
    obtain ⟨h1, h2⟩ := h
    subst h2
    exact Or.inl hg
  | cons x rest ih =>
    intro rows0 mis0 rows mis g h hg
    simp only [cluster_check_gids] at h
    split at h
    · cases h
    next cur_rid hcrx =>
      split at h
      next hif =>
        rcases ih h hg with h1 | h1
        · rcases List.mem_append.mp h1 with h2 | h2
          · exact Or.inl h2
          · rcases List.mem_singleton.mp h2 with rfl
            exact Or.inr (List.mem_cons_self _ _)
        · exact Or.inr (List.mem_cons_of_mem _ h1)
      next hif =>
        rcases ih h hg with h1 | h1
        · exact Or.inl h1
        · exact Or.inr (List.mem_cons_of_mem _ h1)

theorem cluster_check_gids_total {gtr : String → Option String} {sp type_rid : String} :
    ∀ {gids : List String} {rows0 : List ClusterRow} {mis0 : List String}
      {rows : List ClusterRow} {mis : List String},
      cluster_check_gids gtr sp type_rid gids rows0 mis0 = .ok (rows, mis) →
      ∀ g ∈ gids, (gtr g).isSome := by
  intro gids
  induction gids with
  | nil =>
    intro rows0 mis0 rows mis _ g hg
    exact absurd hg (List.not_mem_nil _)
  | cons x rest ih =>
    intro rows0 mis0 rows mis h g hg
    simp only [cluster_check_gids] at h
    split at h
    · cases h
    next cur_rid hcrx =>
      rcases List.mem_cons.mp hg with rfl | hgr
      · rw [hcrx]; rfl
      · split at h
        next hif => exact ih h g hgr
        next hif => exact ih h g hgr

theorem cluster_species_loop_mono {cur : GenomeSet} {gtr : String → Option String}
    {anchors : List (String × String)} :
    ∀ {sps : List String} {rows0 : List ClusterRow} {mis0 : List String}
      {rows : List ClusterRow} {mis : List String},
      cluster_species_loop cur gtr anchors sps rows0 mis0 = .ok (rows, mis) →
      ∀ g ∈ mis0, g ∈ mis := by
  intro sps
  induction sps with
  | nil =>
    intro rows0 mis0 rows mis h g hg
    simp only [cluster_species_loop, Except.ok.injEq, Prod.mk.injEq] at h
    obtain ⟨h1, h2⟩ := h
    subst h2
    exact hg
  | cons sp rest ih =>
    intro rows0 mis0 rows mis h g hg
    simp only [cluster_species_loop] at h
    split at h
    next hanch =>
      exact ih h g hg
    next type_rid hanch =>
      split at h
      · cases h
      next rows2 mis2 hcheck =>
        exact ih h g (cluster_check_gids_mono hcheck g hg)

theorem cluster_species_loop_intro {cur : GenomeSet} {gtr : String → Option String}
    {anchors : List (String × String)} :
    ∀ {sps : List String} {rows0 : List ClusterRow} {mis0 : List String}
      {rows : List ClusterRow} {mis : List String} {sp type_rid g cr : String},
      cluster_species_loop cur gtr anchors sps rows0 mis0 = .ok (rows, mis) →
      sp ∈ sps → dfind anchors sp = some type_rid →
      g ∈ species_gids cur sp → gtr g = some cr → type_rid ≠ cr → g ∈ mis := by
  intro sps
  induction sps with
  | nil =>
    intro rows0 mis0 rows mis sp type_rid g cr _ hsp
    exact absurd hsp (List.not_mem_nil _)
  | cons s rest ih =>
    intro rows0 mis0 rows mis sp type_rid g cr h hsp hanch hg hcr hne
    simp only [cluster_species_loop] at h
    rcases List.mem_cons.mp hsp with rfl | hsp2
    · simp only [hanch] at h
      split at h
      · cases h
      next rows2 mis2 hcheck =>
        exact cluster_species_loop_mono h g
          (cluster_check_gids_intro hcheck hg hcr hne)
    · split at h
      next hanch2 =>
        exact ih h hsp2 hanch hg hcr hne
      next tr hanch2 =>
        split at h
        · cases h
        next rows2 mis2 hcheck =>
          exact ih h hsp2 hanch hg hcr hne

theorem cluster_species_loop_elim_mis {cur : GenomeSet} {gtr : String → Option String}
    {anchors : List (String × String)} :
    ∀ {sps : List String} {rows0 : List ClusterRow} {mis0 : List String}
      {rows : List ClusterRow} {mis : List String} {g : String},
      cluster_species_loop cur gtr anchors sps rows0 mis0 = .ok (rows, mis) →
      g ∈ mis → g ∈ mis0 ∨ ∃ sp, sp ∈ sps ∧ g ∈ species_gids cur sp := by
  intro sps
  induction sps with
  | nil =>
    intro rows0 mis0 rows mis g h hg
    simp only [cluster_species_loop, Except.ok.injEq, Prod.mk.injEq] at h
    obtain ⟨h1, h2⟩ := h
    subst h2
    exact Or.inl hg
  | cons sp rest ih =>
    intro rows0 mis0 rows mis g h hg
    simp only [cluster_species_loop] at h
    split at h
    next hanch =>
      rcases ih h hg with h1 | ⟨sp2, hmem, hin⟩
      · exact Or.inl h1
      · exact Or.inr ⟨sp2, List.mem_cons_of_mem _ hmem, hin⟩
    next type_rid hanch =>
      split at h
      · cases h
      next rows2 mis2 hcheck =>
        rcases ih h hg with h1 | ⟨sp2, hmem, hin⟩
        · rcases cluster_check_gids_elim_mis hcheck h1 with h2 | h2
          · exact Or.inl h2
          · exact Or.inr ⟨sp, List.mem_cons_self _ _, h2⟩
        · exact Or.inr ⟨sp2, List.mem_cons_of_mem _ hmem, hin⟩

theorem cluster_species_loop_total {cur : GenomeSet} {gtr : String → Option String}
    {anchors : List (String × String)} :
    ∀ {sps : List String} {rows0 : List ClusterRow} {mis0 : List String}
      {rows : List ClusterRow} {mis : List String},
      cluster_species_loop cur gtr anchors sps rows0 mis0 = .ok (rows, mis) →
      ∀ sp ∈ sps, ∀ type_rid, dfind anchors sp = some type_rid →
      ∀ g ∈ species_gids cur sp, (gtr g).isSome := by
  intro sps
  induction sps with
  | nil =>
    intro rows0 mis0 rows mis _ sp hsp
    exact absurd hsp (List.not_mem_nil _)
  | cons s rest ih =>
    intro rows0 mis0 rows mis h sp hsp type_rid hanch g hg
    simp only [cluster_species_loop] at h
    rcases List.mem_cons.mp hsp with rfl | hsp2
    · simp only [hanch] at h
      split at h
      · cases h
      next rows2 mis2 hcheck =>
        exact cluster_check_gids_total hcheck g hg
    · split at h
      next hanch2 =>
        exact ih h sp hsp2 type_rid hanch g hg
      next tr hanch2 =>
        split at h
        · cases h
        next rows2 mis2 hcheck =>
          exact ih h sp hsp2 type_rid hanch g hg

theorem anchor_scan_ani_elim {cur : GenomeSet} :
    ∀ {cs : Clusters} {d m : List (String × String)} {sp R : String},
      anchor_scan_ani cur cs d = .ok m → dfind m sp = some R →
      dfind d sp = some R ∨
        ∃ cids gen, (R, cids) ∈ cs ∧ getGenome? cur R = some gen ∧
          gen.is_effective_type_strain = true ∧ gen.ncbi_species = sp ∧ sp ≠ "s__" := by
  intro cs
  induction cs with
  | nil =>
    intro d m sp R h hf
    simp only [anchor_scan_ani, Except.ok.injEq] at h
    subst h
    exact Or.inl hf
  | cons p rest ih =>
    intro d m sp R h hf
    simp only [anchor_scan_ani] at h
    split at h
    · cases h
    next gen hgen =>
      split at h
      next hcond =>
        rcases ih h hf with h1 | ⟨cids, gen2, hmem, hrest⟩
        · rw [dfind_cons] at h1
          by_cases hk : gen.ncbi_species = sp
          · rw [if_pos hk] at h1
            injection h1 with h1
            refine Or.inr ⟨p.2, gen, ?_, h1 ▸ hgen, hcond.1, hk, hk ▸ hcond.2⟩
            rw [← h1]
            simp
          · rw [if_neg hk] at h1
            exact Or.inl h1
        · exact Or.inr ⟨cids, gen2, List.mem_cons_of_mem _ hmem, hrest⟩
      next hcond =>
        rcases ih h hf with h1 | ⟨cids, gen2, hmem, hrest⟩
        · exact Or.inl h1
        · exact Or.inr ⟨cids, gen2, List.mem_cons_of_mem _ hmem, hrest⟩

theorem anchor_scan_cids_preserve {cur : GenomeSet} {leaked rid : String} :
    ∀ {cids : List String} {d m : List (String × String)} {sp R : String},
      anchor_scan_cids cur leaked rid cids d = .ok m → dfind d sp = some R →
      dfind m sp = some R := by
  intro cids
  induction cids with
  | nil =>
    intro d m sp R h hd
    simp only [anchor_scan_cids, Except.ok.injEq] at h
    subst h
    exact hd
  | cons x rest ih =>
    intro d m sp R h hd
    simp only [anchor_scan_cids] at h
    split at h
    · cases h
    next gen hgen =>
      split at h
      next heff =>
        split at h
        next hcond =>
          split at h
          next r0 hr0 =>
            split at h
            next hne => cases h
            next hne =>
              refine ih h ?_
              rw [dfind_cons]
              by_cases hk : gen.ncbi_species = sp
              · rw [if_pos hk]
                rw [hk, hd] at hr0
                injection hr0 with hr0
                have hrr : rid = r0 := not_ne_iff.mp hne
                rw [hrr, hr0]
              · rw [if_neg hk]
                exact hd
          next hr0 =>
            refine ih h ?_
            rw [dfind_cons]
            by_cases hk : gen.ncbi_species = sp
            · rw [hk, hd] at hr0
              cases hr0
            · rw [if_neg hk]
              exact hd
        next hcond => exact ih h hd
      next heff => exact ih h hd

theorem anchor_scan_cluster_preserve {cur : GenomeSet} {leaked : String} :
    ∀ {cs : Clusters} {d m : List (String × String)} {sp R : String},
      anchor_scan_cluster cur leaked cs d = .ok m → dfind d sp = some R →
      dfind m sp = some R := by
  intro cs
  induction cs with
  | nil =>
    intro d m sp R h hd
    simp only [anchor_scan_cluster, Except.ok.injEq] at h
    subst h
    exact hd
  | cons p rest ih =>
    intro d m sp R h hd
    simp only [anchor_scan_cluster] at h
    split at h
    · cases h
    next d2 hd2 =>
      exact ih h (anchor_scan_cids_preserve hd2 hd)

theorem anchor_scan_cids_intro {cur : GenomeSet} {leaked rid : String} :
    ∀ {cids : List String} {d m : List (String × String)} {cid : String} {gen : Genome},
      anchor_scan_cids cur leaked rid cids d = .ok m → cid ∈ cids →
      getGenome? cur cid = some gen → gen.is_effective_type_strain = true →
      gen.ncbi_species ≠ "s__" → leaked ∉ forbidden_names →
      dfind m gen.ncbi_species = some rid := by
  intro cids
  induction cids with
  | nil =>
    intro d m cid gen _ hc
    exact absurd hc (List.not_mem_nil _)
  | cons x rest ih =>
    intro d m cid gen h hc hgen heff hs hl
    simp only [anchor_scan_cids] at h
    rcases List.mem_cons.mp hc with rfl | hcr
    · split at h
      next hnone => rw [hgen] at hnone; cases hnone
      next gen2 hgen2 =>
        rw [hgen] at hgen2
        cases hgen2
        rw [if_pos heff, if_pos ⟨hs, hl⟩] at h
        split at h
        next r0 hr0 =>
          split at h
          next hne => cases h
          next hne =>
            refine anchor_scan_cids_preserve h ?_
            rw [dfind_cons, if_pos rfl]
        next hr0 =>
          refine anchor_scan_cids_preserve h ?_
          rw [dfind_cons, if_pos rfl]
    · split at h
      · cases h
      next gen2 hgen2 =>
        split at h
        next heff2 =>
          split at h
          next hcond2 =>
            split at h
            next r0 hr0 =>
              split at h
              next hne => cases h
              next hne => exact ih h hcr hgen heff hs hl
            next hr0 => exact ih h hcr hgen heff hs hl
          next hcond2 => exact ih h hcr hgen heff hs hl
        next heff2 => exact ih h hcr hgen heff hs hl

theorem anchor_scan_cluster_intro {cur : GenomeSet} {leaked : String} :
    ∀ {cs : Clusters} {d m : List (String × String)} {rid : String}
      {cids : List String} {cid : String} {gen : Genome},
      anchor_scan_cluster cur leaked cs d = .ok m → (rid, cids) ∈ cs →
      cid ∈ cids → getGenome? cur cid = some gen →
      gen.is_effective_type_strain = true → gen.ncbi_species ≠ "s__" →
      leaked ∉ forbidden_names → dfind m gen.ncbi_species = some rid := by
  intro cs
  induction cs with
  | nil =>
    intro d m rid cids cid gen _ hp
    exact absurd hp (List.not_mem_nil _)
  | cons p rest ih =>
    intro d m rid cids cid gen h hp hc hgen heff hs hl
    simp only [anchor_scan_cluster] at h
    split at h
    · cases h
    next d2 hd2 =>
      rcases List.mem_cons.mp hp with heq | hmem
      · have h1 : p.1 = rid := by rw [← heq]
        have h2 : p.2 = cids := by rw [← heq]
        rw [h1, h2] at hd2
        exact anchor_scan_cluster_preserve h
          (anchor_scan_cids_intro hd2 hc hgen heff hs hl)
      · exact ih h hmem hc hgen heff hs hl

theorem anchor_scan_cids_ok_or_conflict {cur : GenomeSet} {leaked rid : String} :
    ∀ {cids : List String} {d : List (String × String)},
      (∀ c ∈ cids, (getGenome? cur c).isSome) →
      (∃ m, anchor_scan_cids cur leaked rid cids d = .ok m) ∨
        (∃ s, anchor_scan_cids cur leaked rid cids d = .error (.anchorConflict s)) := by
  intro cids
  induction cids with
  | nil =>
    intro d _
    exact Or.inl ⟨d, rfl⟩
  | cons x rest ih =>
    intro d htot
    obtain ⟨gen, hgen⟩ := Option.isSome_iff_exists.mp (htot x (List.mem_cons_self _ _))
    have htot2 : ∀ c ∈ rest, (getGenome? cur c).isSome :=
      fun c hc => htot c (List.mem_cons_of_mem _ hc)
    simp only [anchor_scan_cids, hgen]
    by_cases heff : gen.is_effective_type_strain = true
    · rw [if_pos heff]
      by_cases hcond : gen.ncbi_species ≠ "s__" ∧ ¬ (leaked ∈ forbidden_names)
      · rw [if_pos hcond]
        split
        next r0 hr0 =>
          by_cases hne : rid ≠ r0
          · rw [if_pos hne]
            exact Or.inr ⟨gen.ncbi_species, rfl⟩
          · rw [if_neg hne]
            exact ih htot2
        next hr0 => exact ih htot2
      · rw [if_neg hcond]
        exact ih htot2
    · rw [if_neg heff]
      exact ih htot2

theorem anchor_scan_cluster_ok_or_conflict {cur : GenomeSet} {leaked : String} :
    ∀ {cs : Clusters} {d : List (String × String)},
      (∀ p ∈ cs, ∀ c ∈ p.2, (getGenome? cur c).isSome) →
      (∃ m, anchor_scan_cluster cur leaked cs d = .ok m) ∨
        (∃ s, anchor_scan_cluster cur leaked cs d = .error (.anchorConflict s)) := by
  intro cs
  induction cs with
  | nil =>
    intro d _
    exact Or.inl ⟨d, rfl⟩
  | cons p rest ih =>
    intro d htot
    have htot1 : ∀ c ∈ p.2, (getGenome? cur c).isSome :=
      htot p (List.mem_cons_self _ _)
    have htot2 : ∀ q ∈ rest, ∀ c ∈ q.2, (getGenome? cur c).isSome :=
      fun q hq => htot q (List.mem_cons_of_mem _ hq)
    simp only [anchor_scan_cluster]
    rcases @anchor_scan_cids_ok_or_conflict cur leaked p.1 p.2 d htot1 with
      ⟨m2, hm2⟩ | ⟨s, hserr⟩
    · rw [hm2]
      exact ih htot2
    · rw [hserr]
      exact Or.inr ⟨s, rfl⟩

/-- C1 counterexample: with two effective type strain genomes carrying
the same NCBI species in two different clusters, the
representative-anchored (ANI) variant does not abort: it silently
overwrites the Species Anchor Map entry (the later cluster wins) and
still produces a misclassification report row. -/
theorem anchor_conflict_counterexample :
    ncbi_type_anchored_species_ani genomesConflict clustersConflict =
      .ok [("s__Foo bar", "R2"), ("s__Foo bar", "R1")] ∧
    dfind [("s__Foo bar", "R2"), ("s__Foo bar", "R1")] "s__Foo bar" = some "R2" ∧
    identify_misclassified_genomes_ani genomesConflict clustersConflict 95 aniAfConflict =
      .ok ([⟨"R1", "s__Foo bar", "R1", "R2", 80, 1⟩], ["R1"]) :=
  ⟨by decide, by decide, by decide⟩

/-- C1 (amended): only the cluster-anchored variant aborts.  When two
effective type strain genomes with the same assigned NCBI species lie
in different clusters, the genome lookups succeed and the stale
forbidden-epithet guard passes, the clustering method terminates with
the fatal anchor-conflict error before producing any report. -/
theorem anchor_conflict_aborts_cluster_method
    (cur : GenomeSet) (clusters : Clusters)
    (r1 r2 g1 g2 sp : String) (c1s c2s : List String) (gen1 gen2 : Genome)
    (hp1 : (r1, c1s) ∈ clusters) (hp2 : (r2, c2s) ∈ clusters) (hr : r1 ≠ r2)
    (hg1 : g1 ∈ c1s) (hgen1 : getGenome? cur g1 = some gen1)
    (ht1 : gen1.is_effective_type_strain = true) (hsp1 : gen1.ncbi_species = sp)
    (hg2 : g2 ∈ c2s) (hgen2 : getGenome? cur g2 = some gen2)
    (ht2 : gen2.is_effective_type_strain = true) (hsp2 : gen2.ncbi_species = sp)
    (hs : sp ≠ "s__")
    (hl : leaked_specific cur ∉ forbidden_names)
    (htot : ∀ p ∈ clusters, ∀ c ∈ p.2, (getGenome? cur c).isSome) :
    ∃ s, identify_misclassified_genomes_cluster cur clusters =
      .error (.anchorConflict s) := by
  have hs1 : gen1.ncbi_species ≠ "s__" := by rw [hsp1]; exact hs
  have hs2 : gen2.ncbi_species ≠ "s__" := by rw [hsp2]; exact hs
  rcases @anchor_scan_cluster_ok_or_conflict cur (leaked_specific cur) clusters [] htot with
    ⟨m, hm⟩ | ⟨s, hserr⟩
  · exfalso
    have h1 := anchor_scan_cluster_intro hm hp1 hg1 hgen1 ht1 hs1 hl
    have h2 := anchor_scan_cluster_intro hm hp2 hg2 hgen2 ht2 hs2 hl
    rw [hsp1] at h1
    rw [hsp2] at h2
    rw [h1] at h2
    injection h2 with h2
    exact hr h2
  · refine ⟨s, ?_⟩
    unfold identify_misclassified_genomes_cluster ncbi_type_anchored_species_cluster
    rw [hserr]

/-- Witness for the amended C1 at the conflict scenario. -/
theorem anchor_conflict_aborts_cluster_method_witness :
    ∃ s, identify_misclassified_genomes_cluster genomesConflict clustersConflict =
      .error (.anchorConflict s) :=
  anchor_conflict_aborts_cluster_method genomesConflict clustersConflict
    "R1" "R2" "R1" "R2" "s__Foo bar" ["R1"] ["R2"]
    ⟨"s__Foo bar", true, false, ""⟩ ⟨"s__Foo bar", true, false, ""⟩
    (by decide) (by decide) (by decide) (by decide) (by decide) (by decide)
    (by decide) (by decide) (by decide) (by decide) (by decide) (by decide)
    (by decide) (by decide)

/-- C3 counterexample: in the leak scenario the ANI method flags `G2`
(with resolvable similarity), but the clustering method flags nothing,
because its anchor loop reads the stale epithet of the last genome
(`cyanobacterium`, forbidden) and so records no anchors at all. -/
theorem cluster_method_superset_counterexample :
    identify_misclassified_genomes_ani genomesLeak clustersLeak 95 aniAfLeak =
      .ok ([⟨"G2", "s__Foo bar", "R2", "R1", 80, 1⟩], ["G2"]) ∧
    symmetric_ani aniAfLeak "R1" "G2" = some (80, 1) ∧
    identify_misclassified_genomes_cluster genomesLeak clustersLeak = .ok ([], []) ∧
    "G2" ∉ ([] : List String) :=
  ⟨by decide, by decide, by decide, by decide⟩

/-- C3 (amended): when the stale epithet consulted by the clustering
method is not forbidden, the cluster input is well formed, and both
methods complete, the cluster-only flagged set contains every genome
flagged by the similarity-threshold method (each of which had
resolvable similarity). -/
theorem cluster_method_superset (cur : GenomeSet) (clusters : Clusters)
    (thr : ℚ) (ani_af : AniAf) (rowsA : List AniRow) (misA : List String)
    (rowsC : List ClusterRow) (misC : List String)
    (hread : ReadClustersOutput clusters)
    (hleak : leaked_specific cur ∉ forbidden_names)
    (hA : identify_misclassified_genomes_ani cur clusters thr ani_af = .ok (rowsA, misA))
    (hC : identify_misclassified_genomes_cluster cur clusters = .ok (rowsC, misC)) :
    ∀ g ∈ misA, g ∈ misC := by
  intro g hg
  unfold identify_misclassified_genomes_ani at hA
  split at hA
  · cases hA
  next mA hmA =>
    unfold identify_misclassified_genomes_cluster at hC
    split at hC
    · cases hC
    next mC hmC =>
      rcases ani_species_loop_elim_mis hA hg with
        h1 | ⟨sp, tr, cr, a, f, hsp, hanch, hgsp, hcr, hne, hsym, hlt⟩
      · exact absurd h1 (List.not_mem_nil _)
      · rcases anchor_scan_ani_elim hmA hanch with
          h2 | ⟨cids, gen, hmem, hgen, heff, hgsp2, hs2⟩
        · simp [dfind] at h2
        · have hcid : tr ∈ cids := hread.1 (tr, cids) hmem
          have hsnot : gen.ncbi_species ≠ "s__" := by rw [hgsp2]; exact hs2
          have hanchC := anchor_scan_cluster_intro hmC hmem hcid hgen heff hsnot hleak
          rw [hgsp2] at hanchC
          exact cluster_species_loop_intro hC hsp hanchC hgsp hcr hne

/-- Witness for the amended C3 at the superset scenario. -/
theorem cluster_method_superset_witness :
    "G2" ∈ ["G2"] :=
  cluster_method_superset genomesSuperset clustersLeak 95 aniAfLeak
    [⟨"G2", "s__Foo bar", "R2", "R1", 80, 1⟩] ["G2"]
    [⟨"G2", "s__Foo bar", "R2", "R1"⟩] ["G2"]
    ⟨by decide, by decide⟩ (by decide) (by decide) (by decide)
    "G2" (by decide)

/-- C4 counterexample: a species whose epithet is the reserved
placeholder becomes a key of the Species Anchor Map built by the
representative-anchored (ANI) variant, whose anchor step never
consults the forbidden-name list. -/
theorem forbidden_epithet_counterexample :
    ncbi_type_anchored_species_ani genomesForbidden clustersForbidden =
      .ok [("s__Candidatus cyanobacterium", "R1")] ∧
    specific_epithet "s__Candidatus cyanobacterium" ∈ forbidden_names :=
  ⟨by decide, by decide⟩

/-- C4 (amended): a genome whose NCBI species epithet is forbidden
never enters the candidate groups, hence never appears in the
misclassified output of either detection method; the anchor steps do
not reliably exclude forbidden species names (see the
counterexample). -/
theorem forbidden_epithet_never_flagged (cur : GenomeSet) (clusters : Clusters)
    (thr : ℚ) (ani_af : AniAf) (rowsA : List AniRow) (misA : List String)
    (rowsC : List ClusterRow) (misC : List String)
    (hA : identify_misclassified_genomes_ani cur clusters thr ani_af = .ok (rowsA, misA))
    (hC : identify_misclassified_genomes_cluster cur clusters = .ok (rowsC, misC)) :
    ∀ g, g ∈ misA ∨ g ∈ misC →
      ∃ gen, (g, gen) ∈ cur ∧ gen.ncbi_species ≠ "s__" ∧
        specific_epithet gen.ncbi_species ∉ forbidden_names := by
  intro g hg
  rcases hg with hg | hg
  · unfold identify_misclassified_genomes_ani at hA
    split at hA
    · cases hA
    next mA hmA =>
      rcases ani_species_loop_elim_mis hA hg with
        h1 | ⟨sp, tr, cr, a, f, _, _, hgsp, _, _, _, _⟩
      · exact absurd h1 (List.not_mem_nil _)
      · rcases mem_species_gids.mp hgsp with ⟨gen, hin, hpass, hsp⟩
        rcases sp_pass_iff.mp hpass with ⟨h1, h2⟩
        exact ⟨gen, hin, h1, h2⟩
  · unfold identify_misclassified_genomes_cluster at hC
    split at hC
    · cases hC
    next mC hmC =>
      rcases cluster_species_loop_elim_mis hC hg with h1 | ⟨sp, _, hgsp⟩
      · exact absurd h1 (List.not_mem_nil _)
      · rcases mem_species_gids.mp hgsp with ⟨gen, hin, hpass, hsp⟩
        rcases sp_pass_iff.mp hpass with ⟨h1, h2⟩
        exact ⟨gen, hin, h1, h2⟩

/-- Witness for the amended C4 at the superset scenario. -/
theorem forbidden_epithet_never_flagged_witness :
    ∃ gen, ("G2", gen) ∈ genomesSuperset ∧ gen.ncbi_species ≠ "s__" ∧
      specific_epithet gen.ncbi_species ∉ forbidden_names :=
  forbidden_epithet_never_flagged genomesSuperset clustersLeak 95 aniAfLeak
    [⟨"G2", "s__Foo bar", "R2", "R1", 80, 1⟩] ["G2"]
    [⟨"G2", "s__Foo bar", "R2", "R1"⟩] ["G2"]
    (by decide) (by decide)
    "G2" (Or.inl (by decide))

/-- C6 counterexample: a candidate genome of an anchored species that
is absent from the Cluster Index makes both detection methods abort
with an uncaught KeyError: the genome is not skipped and the run
crashes. -/
theorem unclustered_candidate_counterexample :
    identify_misclassified_genomes_ani genomesUnclustered clustersUnclustered 95 [] =
      .error (.keyError "G") ∧
    identify_misclassified_genomes_cluster genomesUnclustered clustersUnclustered =
      .error (.keyError "G") :=
  ⟨by decide, by decide⟩

/-- C6 (amended): neither method silently assigns a default
representative: any run that completes resolved the Cluster Index
lookup of every candidate genome of every anchored species, so a
candidate missing from the index can only abort the run with a lookup
error. -/
theorem candidate_lookup_never_defaulted (cur : GenomeSet) (clusters : Clusters)
    (thr : ℚ) (ani_af : AniAf) :
    (∀ mA rowsA misA sp tr g,
      ncbi_type_anchored_species_ani cur clusters = .ok mA →
      identify_misclassified_genomes_ani cur clusters thr ani_af = .ok (rowsA, misA) →
      dfind mA sp = some tr → g ∈ species_gids cur sp →
      (gid_to_rid clusters g).isSome) ∧
    (∀ mC rowsC misC sp tr g,
      ncbi_type_anchored_species_cluster cur clusters = .ok mC →
      identify_misclassified_genomes_cluster cur clusters = .ok (rowsC, misC) →
      dfind mC sp = some tr → g ∈ species_gids cur sp →
      (gid_to_rid clusters g).isSome) := by
  constructor
  · intro mA rowsA misA sp tr g hmA hA hanch hg
    unfold identify_misclassified_genomes_ani at hA
    simp only [hmA] at hA
    exact ani_species_loop_total hA sp (species_gids_sub_keys hg) tr hanch g hg
  · intro mC rowsC misC sp tr g hmC hC hanch hg
    unfold identify_misclassified_genomes_cluster at hC
    simp only [hmC] at hC
    exact cluster_species_loop_total hC sp (species_gids_sub_keys hg) tr hanch g hg

/-- Witness for the amended C6 at the superset scenario. -/
theorem candidate_lookup_never_defaulted_witness :
    (gid_to_rid clustersLeak "G2").isSome :=
  (candidate_lookup_never_defaulted genomesSuperset clustersLeak 95 aniAfLeak).1
    [("s__Foo bar", "R1")] [⟨"G2", "s__Foo bar", "R2", "R1", 80, 1⟩] ["G2"]
    "s__Foo bar" "R1" "G2"
    (by decide) (by decide) (by decide) (by decide)
